import Mathlib

/-
Verification of the eee repository core: shallow embedding of
  * eee/evolve/genotype.py          (Genotype.mutate)
  * eee/evolve/wright_fisher.py     (wright_fisher)
  * eee/simulation/core/engine/follow_tree.py (_simulate_branch target)
  * eee/core/ensemble.py            (z matrix, weights, observables)
together with theorems settling the frozen claims about the spec.

Conventions: Python machine floats on the thermodynamic side are modelled by
real numbers; the discrete simulation side (population lists, counts,
rational fitness/probabilities) is modelled executably over Nat/Int/Rat so
concrete runs evaluate by rfl or decide.  Fallible Python code (raising
ValueError or IndexError) is modelled with Except String.  Randomness
(numpy global generator draws) is modelled by explicit streams of drawn
values passed as arguments.
-/

namespace EEE

/-! ### Python value model for Genotype lists

Genotype keeps two parallel Python lists: `_sites` (integer site keys) and
`_mutations` (string mutation labels).  `Genotype.mutate` calls
`list.remove` and `list.index` on these, and Python compares list elements
against the probe with `==`, where an int never equals a str.  We model
Python list elements with a sum type whose equality is exactly that. -/

inductive PyVal where
  | int : Int → PyVal
  | str : String → PyVal
deriving DecidableEq, Repr

/-- Python `list.remove(x)`: delete the first element equal to `x`;
`none` models the `ValueError: list.remove(x): x not in list` raise. -/
def pyRemove : List PyVal → PyVal → Option (List PyVal)
  | [], _ => none
  | a :: rest, x =>
    if a = x then some rest
    else (pyRemove rest x).map (fun l => a :: l)

/-- Python `list.index(x)`: index of the first element equal to `x`
(only meaningful when `x` is a member, exactly as in the source). -/
def pyIndex (l : List PyVal) (x : PyVal) : Nat := l.indexOf x

/-- State of eee.evolve.genotype.Genotype: parallel `_sites` and
`_mutations` lists plus the `_mut_energy` dictionary keyed by species
name (every species of the ensemble is initialized to 0 in `__init__`,
so a total function is the faithful model). -/
structure Genotype where
  sites : List PyVal
  mutations : List PyVal
  mutEnergy : String → ℚ

/-- Resampling loop of `Genotype.mutate` (the `while True` block):
draw `choice k` for k = 0,1,... until the draw differs from the previous
mutation (`None` compares unequal to everything, as in Python).  `fuel`
bounds the modelled loop; every reachable call site in the source reaches
this loop only with `prev = none`, where the first draw is accepted. -/
def pickMutation (prev : Option PyVal) (choice : Nat → PyVal) :
    Nat → Nat → Except String PyVal
  | _, 0 => Except.error "model: resampling loop fuel exhausted"
  | k, fuel + 1 =>
    let m := choice k
    match prev with
    | none => Except.ok m
    | some p => if m = p then pickMutation prev choice (k + 1) fuel else Except.ok m

/-- Shallow embedding of `Genotype.mutate` (genotype.py lines 77-118).
`specList` is the species list of the ensemble, `ddg` the nested
`ddg_dict` table (site -> mutation -> species -> ddG), `site` the site key
drawn by `np.random.choice(self._possible_sites)`, and `mutChoice` the
stream of draws `np.random.choice(self._mutations_at_sites[site])`.

The body follows the source exactly: when the drawn site is already
mutated the code subtracts the previous mutation's ddG offsets from
`_mut_energy`, then calls `self._sites.remove(idx)` and
`self._mutations.remove(idx)` with the positional index `idx` as the
value to remove; after the (possible) revert it draws a fresh mutation
and appends the pair.  Note the source never adds the new mutation's
ddG offsets to `_mut_energy`. -/
def Genotype.mutate (specList : List String) (ddg : PyVal → PyVal → String → ℚ)
    (g : Genotype) (site : PyVal) (mutChoice : Nat → PyVal) (fuel : Nat) :
    Except String Genotype :=
  let afterRevert : Except String (Genotype × Option PyVal) :=
    if site ∈ g.sites then
      let idx := pyIndex g.sites site
      match g.mutations[idx]? with
      | none => Except.error "IndexError: list index out of range"
      | some prevMut =>
        let me := fun sp =>
          if sp ∈ specList then g.mutEnergy sp - ddg site prevMut sp else g.mutEnergy sp
        match pyRemove g.sites (PyVal.int idx) with
        | none => Except.error "ValueError: list.remove(x): x not in list"
        | some sites2 =>
          match pyRemove g.mutations (PyVal.int idx) with
          | none => Except.error "ValueError: list.remove(x): x not in list"
          | some muts2 =>
            Except.ok ({ sites := sites2, mutations := muts2, mutEnergy := me }, some prevMut)
    else
      Except.ok (g, none)
  match afterRevert with
  | Except.error e => Except.error e
  | Except.ok (g1, prevMut) =>
    match pickMutation prevMut mutChoice 0 fuel with
    | Except.error e => Except.error e
    | Except.ok mutation =>
      Except.ok { g1 with
        sites := g1.sites ++ [site],
        mutations := g1.mutations ++ [mutation] }

/-- Sum of the `ddg_dict` entries of the currently active (site, mutation)
pairs of a genotype, for one species: the value the spec says
`_mut_energy` always equals. -/
def activeEnergy (ddg : PyVal → PyVal → String → ℚ) (g : Genotype) (sp : String) : ℚ :=
  ((g.sites.zip g.mutations).map (fun p => ddg p.1 p.2 sp)).sum

/-! ### Wright-Fisher engine (eee/evolve/wright_fisher.py)

A generation snapshot is the `np.unique(population, return_counts=True)`
pair: ascending distinct genotype indices with their counts.  The numpy
global-generator draws consumed by one transition are modelled by `WFRng`:
`sel g slot` indexes into the current distinct-genotype array for the
resampling draw, `poisson g` is the Poisson draw, and `newIdx g j` is the
index returned by `gc.mutate` for the j-th mutated member in generation
`g`.  The stream is an argument of the model (numpy keeps it in hidden
module state; the source functions take no rng parameter). -/

/-- Snapshot constructor: `np.unique(population, return_counts=True)`. -/
def npUnique (pop : List Nat) : List Nat × List Nat :=
  let seen := List.insertionSort (· ≤ ·) pop.dedup
  (seen, seen.map (fun g => pop.count g))

structure WFRng where
  sel : Nat → Nat → Nat
  poisson : Nat → Nat
  newIdx : Nat → Nat → Nat

/-- One Wright-Fisher transition (wright_fisher.py lines 107-148).
Follows the source: per-genotype weight is fitness times count; if the
weights sum to zero the code replaces them by `np.ones(population_size)`
(note: length `population_size`, not the number of distinct genotypes);
`np.random.choice(current_genotypes, size=population_size, p=prob)`
raises when the weight vector length differs from the genotype vector
length, or when a probability is negative; finally the first
`min(poisson, population_size)` members of the resampled population are
replaced by fresh mutant indices. -/
def wfStep (fitness : Nat → ℚ) (popSize : Nat) (snap : List Nat × List Nat)
    (sel : Nat → Nat) (poissonDraw : Nat) (newIdx : Nat → Nat) :
    Except String (List Nat) :=
  let seen := snap.1
  let counts := snap.2
  let prob0 := (seen.zip counts).map (fun p => fitness p.1 * (p.2 : ℚ))
  let prob := if prob0.sum = 0 then List.replicate popSize (1 : ℚ) else prob0
  if prob.length ≠ seen.length then
    Except.error "ValueError: a and p must have same size"
  else
    let p := prob.map (fun x => x / prob.sum)
    if p.any (fun x => decide (x < 0)) then
      Except.error "ValueError: probabilities are not non-negative"
    else
      let resampled := (List.range popSize).map (fun slot => seen.getD (sel slot % seen.length) 0)
      let numToMutate := min poissonDraw popSize
      Except.ok (resampled.mapIdx (fun j g => if j < numToMutate then newIdx j else g))

/-- Generations 1..: the `for _ in range(1, num_generations)` loop,
recording one snapshot per completed transition. -/
def wfIter (fitness : Nat → ℚ) (popSize : Nat) (rng : WFRng) :
    Nat → Nat → List Nat × List Nat → Except String (List (List Nat × List Nat))
  | 0, _, _ => Except.ok []
  | k + 1, g, snap =>
    match wfStep fitness popSize snap (rng.sel g) (rng.poisson g) (rng.newIdx g) with
    | Except.error e => Except.error e
    | Except.ok pop =>
      let snap2 := npUnique pop
      match wfIter fitness popSize rng k (g + 1) snap2 with
      | Except.error e => Except.error e
      | Except.ok rest => Except.ok (snap2 :: rest)

/-- Shallow embedding of `wright_fisher` (wright_fisher.py lines 11-152)
for an explicit initial population array.  Returns the recorded list of
generation snapshots (the returned GenotypeContainer is not modelled; the
mutant indices it would assign are the `rng.newIdx` stream). -/
def wrightFisher (fitness : Nat → ℚ) (population : List Nat) (mutationRate : ℚ)
    (numGenerations : Nat) (rng : WFRng) : Except String (List (List Nat × List Nat)) :=
  if population.length < 1 then
    Except.error "ValueError: population should be a population dictionary, array of genotype indexes, or a positive integer"
  else if mutationRate < 0 then
    Except.error "ValueError: mutation_rate should be a float > 0"
  else if numGenerations < 1 then
    Except.error "ValueError: num_generations should be an integer >= 1"
  else
    match wfIter fitness population.length rng (numGenerations - 1) 1 (npUnique population) with
    | Except.error e => Except.error e
    | Except.ok rest => Except.ok (npUnique population :: rest)

/-! ### Branch mutation target (follow_tree.py lines 39-57) -/

/-- numpy `np.round(q, 0)`: round half to even, as an integer. -/
def npRound (q : ℚ) : ℤ :=
  let f := ⌊q⌋
  let r := q - (f : ℚ)
  if r < 1 / 2 then f
  else if 1 / 2 < r then f + 1
  else if f % 2 = 0 then f else f + 1

/-- Target mutation count computed by `_simulate_branch`:
`int(np.round(branch_length * sequence_length, 0))` plus the accumulated
mutation count of the starting population's most frequent genotype (the
value of `get_num_accumulated_mutations`, taken here as the parameter
`numMutationsStart`), forced to 1 when the sum is 0. -/
def simulateBranchTarget (branchLength : ℚ) (seqLength : Nat) (numMutationsStart : Nat) : ℤ :=
  let n := npRound (branchLength * (seqLength : ℚ)) + (numMutationsStart : ℤ)
  if n = 0 then 1 else n

/-! ### Ligand dictionary updates (ensemble.py `_build_z_matrix`, lines 164-224)

A Python dict with string keys and per-condition potential arrays is
modelled as an insertion-ordered association list; `dict[k] = v` on a
missing key appends. -/

abbrev LigandDict := List (String × List ℚ)

def hasKey (d : LigandDict) (k : String) : Bool :=
  d.any (fun p => p.1 = k)

def lookupLigand : LigandDict → String → Option (List ℚ)
  | [], _ => none
  | p :: rest, k => if p.1 = k then some p.2 else lookupLigand rest k

/-- Number of conditions `_build_z_matrix` infers: 1 for an empty dict,
else the length of the first value (`len(ligand_dict[next(iter(...))])`). -/
def numConditionsOf (d : LigandDict) : Nat :=
  match d with
  | [] => 1
  | p :: _ => p.2.length

/-- Effect of `_build_z_matrix` on the ligand dictionary it receives
(ensemble.py lines 176-186): every ensemble ligand missing from the dict
is inserted with a zero array of length `numConditionsOf d` (for an empty
dict this inserts a one-condition zero array for every ligand). -/
def buildZMatrixLigandUpdate (ligandList : List String) (d : LigandDict) : LigandDict :=
  d ++ (ligandList.filter (fun lig => ! hasKey d lig)).map
        (fun lig => (lig, List.replicate (numConditionsOf d) (0 : ℚ)))

/-- Modelled from the spec: `check_ligand_dict` (eee._private.check.eee) is
not part of the excerpted sources; per spec section 1 the validation
helpers "hand the core well-typed, validated data", so on valid input the
checker passes the caller's dictionary through unchanged (the source then
calls `self._build_z_matrix(ligand_dict)` on that same dictionary in
`get_species_dG`, `get_obs` and `read_ligand_dict`). -/
def check_ligand_dict (d : LigandDict) : LigandDict := d

/-! ### Thermodynamic ensemble (eee/core/ensemble.py)

Floating-point arithmetic is modelled by exact real arithmetic.  An
ensemble with `ns + 1` species (insertion-ordered, indexed by
`Fin (ns + 1)`) and `nl` ligands; a built z matrix corresponds to a fixed
potential table `pot : Fin nl → Fin nc → ℝ` over `nc` conditions (the
ligand-dict after the zero-fill of `_build_z_matrix`). -/

structure EnsembleModel (ns nl : Nat) where
  names : Fin (ns + 1) → String
  dG0 : Fin (ns + 1) → ℝ
  stoich : Fin (ns + 1) → Fin nl → ℝ
  observable : Fin (ns + 1) → Bool
  folded : Fin (ns + 1) → Bool
  gasConstant : ℝ
  maxAllowed : ℝ

variable {ns nl nc : Nat}

/-- The z matrix of `_build_z_matrix` (lines 199-216):
`z[i,j] = dG0[i] - sum over ligands of potential[lig][j] * stoich[i][lig]`. -/
noncomputable def zMatrix (E : EnsembleModel ns nl) (pot : Fin nl → Fin nc → ℝ) :
    Fin (ns + 1) → Fin nc → ℝ :=
  fun i j => E.dG0 i - ∑ l, pot l j * E.stoich i l

/-- Raw exponents of `_get_weights` (lines 234-236):
`-beta * (z + mut_energy)` with `beta = 1/(R*T)` per condition. -/
noncomputable def rawWeights (E : EnsembleModel ns nl) (pot : Fin nl → Fin nc → ℝ)
    (mutE : Fin (ns + 1) → ℝ) (T : Fin nc → ℝ) : Fin (ns + 1) → Fin nc → ℝ :=
  fun i j => -(1 / (E.gasConstant * T j)) * (zMatrix E pot i j + mutE i)

/-- Per-condition shift of `_get_weights` (line 241):
`self._max_allowed - np.max(weights, axis=0)`. -/
noncomputable def shiftOf (E : EnsembleModel ns nl) (pot : Fin nl → Fin nc → ℝ)
    (mutE : Fin (ns + 1) → ℝ) (T : Fin nc → ℝ) : Fin nc → ℝ :=
  fun j => E.maxAllowed -
    Finset.univ.sup' Finset.univ_nonempty (fun i => rawWeights E pot mutE T i j)

/-- Boltzmann weights returned by `_get_weights` (line 245):
`np.exp(weights + shift)`. -/
noncomputable def getWeights (E : EnsembleModel ns nl) (pot : Fin nl → Fin nc → ℝ)
    (mutE : Fin (ns + 1) → ℝ) (T : Fin nc → ℝ) : Fin (ns + 1) → Fin nc → ℝ :=
  fun i j => Real.exp (rawWeights E pot mutE T i j + shiftOf E pot mutE T j)

/-- Unshifted exponential weights `exp(-beta*(z+mut))`: the weights the
shift-free computation would produce; all population and observable
outputs are ratios of these. -/
noncomputable def rawExpWeights (E : EnsembleModel ns nl) (pot : Fin nl → Fin nc → ℝ)
    (mutE : Fin (ns + 1) → ℝ) (T : Fin nc → ℝ) : Fin (ns + 1) → Fin nc → ℝ :=
  fun i j => Real.exp (rawWeights E pot mutE T i j)

/-- Sum of weights over the observable species
(`np.sum(weights[self._obs_mask,:], axis=0)`). -/
noncomputable def obsSumOf (E : EnsembleModel ns nl) (w : Fin (ns + 1) → Fin nc → ℝ)
    (j : Fin nc) : ℝ :=
  ∑ i ∈ Finset.univ.filter (fun i => E.observable i = true), w i j

/-- Sum of weights over the non-observable species (`_not_obs_mask`). -/
noncomputable def notObsSumOf (E : EnsembleModel ns nl) (w : Fin (ns + 1) → Fin nc → ℝ)
    (j : Fin nc) : ℝ :=
  ∑ i ∈ Finset.univ.filter (fun i => E.observable i = false), w i j

/-- Sum of weights over the folded species (`_folded_mask`). -/
noncomputable def foldedSumOf (E : EnsembleModel ns nl) (w : Fin (ns + 1) → Fin nc → ℝ)
    (j : Fin nc) : ℝ :=
  ∑ i ∈ Finset.univ.filter (fun i => E.folded i = true), w i j

/-- Sum of weights over the unfolded species (`_unfolded_mask`). -/
noncomputable def unfoldedSumOf (E : EnsembleModel ns nl) (w : Fin (ns + 1) → Fin nc → ℝ)
    (j : Fin nc) : ℝ :=
  ∑ i ∈ Finset.univ.filter (fun i => E.folded i = false), w i j

/-- Total weight per condition (`np.sum(weights, axis=0)`); the ensemble
argument fixes the species count. -/
noncomputable def totalSumOf (_E : EnsembleModel ns nl) (w : Fin (ns + 1) → Fin nc → ℝ)
    (j : Fin nc) : ℝ :=
  ∑ i : Fin (ns + 1), w i j

/-- Fractional population of one species (`weights[i]/np.sum(weights,axis=0)`). -/
noncomputable def speciesFracOf (E : EnsembleModel ns nl) (w : Fin (ns + 1) → Fin nc → ℝ)
    (i : Fin (ns + 1)) (j : Fin nc) : ℝ :=
  w i j / totalSumOf E w j

/-- Fraction observable (`obs/(obs + not_obs)`), shared by get_obs (line 386)
and get_fx_obs_fast (line 489). -/
noncomputable def fxObsOf (E : EnsembleModel ns nl) (w : Fin (ns + 1) → Fin nc → ℝ)
    (j : Fin nc) : ℝ :=
  obsSumOf E w j / (obsSumOf E w j + notObsSumOf E w j)

/-- Fraction folded (`folded/(folded + unfolded)`), shared by get_obs
(line 402) and both fast paths. -/
noncomputable def fxFoldedOf (E : EnsembleModel ns nl) (w : Fin (ns + 1) → Fin nc → ℝ)
    (j : Fin nc) : ℝ :=
  foldedSumOf E w j / (foldedSumOf E w j + unfoldedSumOf E w j)

/-- Observable free energy with the NaN guard
(`nan` where `obs == 0 or not_obs == 0`, modelled as `none`; otherwise
`-1/(R*T) * log(obs/not_obs)`), shared by get_obs (lines 389-394) and
get_dG_obs_fast (lines 519-524). -/
noncomputable def dGObsOf (E : EnsembleModel ns nl) (w : Fin (ns + 1) → Fin nc → ℝ)
    (T : Fin nc → ℝ) (j : Fin nc) : Option ℝ :=
  if obsSumOf E w j = 0 ∨ notObsSumOf E w j = 0 then none
  else some (-(1 / (E.gasConstant * T j)) * Real.log (obsSumOf E w j / notObsSumOf E w j))

/-- Conversion `mut_dict_to_array` (lines 424-455): dense per-species array
in ensemble species order; species missing from the dictionary get 0. -/
noncomputable def mutDictToArray (E : EnsembleModel ns nl) (d : String → Option ℝ) :
    Fin (ns + 1) → ℝ :=
  fun i => match d (E.names i) with
  | some v => v
  | none => 0

/-- The fx_obs, dG_obs and fx_folded columns of `get_obs` (lines 301-404):
weights are computed from the mutation-energy dictionary through
`mut_dict_to_array` and `_get_weights`, then combined per condition. -/
noncomputable def getObsColumns (E : EnsembleModel ns nl) (pot : Fin nl → Fin nc → ℝ)
    (d : String → Option ℝ) (T : Fin nc → ℝ) :
    (Fin nc → ℝ) × (Fin nc → Option ℝ) × (Fin nc → ℝ) :=
  let w := getWeights E pot (mutDictToArray E d) T
  (fun j => fxObsOf E w j, fun j => dGObsOf E w T j, fun j => fxFoldedOf E w j)

/-- The pair returned by `get_fx_obs_fast` (lines 457-489): fraction
observable and fraction folded from a pre-ordered mutation-energy array. -/
noncomputable def getFxObsFast (E : EnsembleModel ns nl) (pot : Fin nl → Fin nc → ℝ)
    (mutArr : Fin (ns + 1) → ℝ) (T : Fin nc → ℝ) : (Fin nc → ℝ) × (Fin nc → ℝ) :=
  let w := getWeights E pot mutArr T
  (fun j => fxObsOf E w j, fun j => fxFoldedOf E w j)

/-- The pair returned by `get_dG_obs_fast` (lines 492-529): observable free
energy (with the NaN mask) and fraction folded. -/
noncomputable def getDGObsFast (E : EnsembleModel ns nl) (pot : Fin nl → Fin nc → ℝ)
    (mutArr : Fin (ns + 1) → ℝ) (T : Fin nc → ℝ) :
    (Fin nc → Option ℝ) × (Fin nc → ℝ) :=
  let w := getWeights E pot mutArr T
  (fun j => dGObsOf E w T j, fun j => fxFoldedOf E w j)

/-- Free energy of one species as computed by `get_species_dG`
(lines 247-299): the species' z matrix row plus the mutation energy.  The
species is given by its index in the ensemble's ordered species list (the
source resolves the name through `self._species_list.index(name)`). -/
noncomputable def getSpeciesDG (E : EnsembleModel ns nl) (pot : Fin nl → Fin nc → ℝ)
    (i : Fin (ns + 1)) (mutEnergy : ℝ) : Fin nc → ℝ :=
  fun j => zMatrix E pot i j + mutEnergy

/-- Pointwise bump of one ligand's potential by `δ` across all conditions,
used to state linearity of `get_species_dG` in a single ligand potential. -/
noncomputable def bumpPot (pot : Fin nl → Fin nc → ℝ) (ℓ : Fin nl) (δ : ℝ) :
    Fin nl → Fin nc → ℝ :=
  fun l j => if l = ℓ then pot l j + δ else pot l j

/-- A constant random stream for the Wright-Fisher model: every resampling
draw picks index `v`, no Poisson events, mutants get index 0. -/
def rngConst (v : Nat) : WFRng :=
  { sel := fun _ _ => v, poisson := fun _ => 0, newIdx := fun _ _ => 0 }

/-! ### Helper lemmas -/

/-- The counts returned by `npUnique` always sum to the population length. -/
theorem npUnique_counts_sum (pop : List Nat) : (npUnique pop).2.sum = pop.length := by
  have hperm : List.Perm
      ((List.insertionSort (· ≤ ·) pop.dedup).map (fun g => pop.count g))
      (pop.dedup.map (fun g => pop.count g)) :=
    (List.perm_insertionSort (· ≤ ·) pop.dedup).map _
  simpa [npUnique] using hperm.sum_eq.trans (List.sum_map_count_dedup_eq_length pop)

/-- A successful Wright-Fisher transition returns a population of exactly
`popSize` individuals. -/
theorem wfStep_length (fitness : Nat → ℚ) (popSize : Nat) (snap : List Nat × List Nat)
    (sel : Nat → Nat) (poissonDraw : Nat) (newIdx : Nat → Nat) (pop : List Nat)
    (h : wfStep fitness popSize snap sel poissonDraw newIdx = Except.ok pop) :
    pop.length = popSize := by
  simp only [wfStep] at h
  repeat' split at h
  all_goals
    first
    | exact Except.noConfusion h
    | (simp only [Except.ok.injEq] at h; subst h; simp)

/-- Every snapshot recorded by the generation loop has counts summing to
`popSize`: each recorded snapshot is rebuilt by `npUnique` from a fresh
population of length `popSize`. -/
theorem wfIter_counts_sum (fitness : Nat → ℚ) (popSize : Nat) (rng : WFRng) :
    ∀ (k g : Nat) (snap : List Nat × List Nat) (gens : List (List Nat × List Nat)),
      wfIter fitness popSize rng k g snap = Except.ok gens →
      ∀ s ∈ gens, s.2.sum = popSize := by
  intro k
  induction k with
  | zero =>
    intro g snap gens h s hs
    unfold wfIter at h
    simp only [Except.ok.injEq] at h
    subst h
    simp at hs
  | succ n ih =>
    intro g snap gens h s hs
    unfold wfIter at h
    cases hw : wfStep fitness popSize snap (rng.sel g) (rng.poisson g) (rng.newIdx g) with
    | error e => rw [hw] at h; simp at h
    | ok pop =>
      rw [hw] at h
      simp only at h
      cases hrec : wfIter fitness popSize rng n (g + 1) (npUnique pop) with
      | error e => rw [hrec] at h; simp at h
      | ok rest =>
        rw [hrec] at h
        simp only [Except.ok.injEq] at h
        subst h
        rcases List.mem_cons.mp hs with rfl | hmem
        · rw [npUnique_counts_sum pop]
          exact wfStep_length _ _ _ _ _ _ _ hw
        · exact ih (g + 1) (npUnique pop) rest hrec s hmem

/-- Concrete two-generation run with the constant stream 0: both
resampling draws pick the first distinct genotype. -/
theorem wf_run_stream0 :
    wrightFisher (fun _ => 1) [0, 1] 0 2 (rngConst 0)
      = Except.ok [([0, 1], [1, 1]), ([0], [2])] := by
  norm_num [wrightFisher, wfIter, wfStep, npUnique, rngConst, List.mapIdx_cons,
    List.replicate]

/-- Concrete two-generation run with the constant stream 1: both
resampling draws pick the second distinct genotype. -/
theorem wf_run_stream1 :
    wrightFisher (fun _ => 1) [0, 1] 0 2 (rngConst 1)
      = Except.ok [([0, 1], [1, 1]), ([1], [2])] := by
  norm_num [wrightFisher, wfIter, wfStep, npUnique, rngConst, List.mapIdx_cons,
    List.replicate]

/-- With the constant stream 0 and the constant stream 1, the same
Wright-Fisher inputs produce different trajectories: the resampling draws
come from state that is not among the function's arguments. -/
theorem wf_depends_on_stream :
    wrightFisher (fun _ => 1) [0, 1] 0 2 (rngConst 0)
      ≠ wrightFisher (fun _ => 1) [0, 1] 0 2 (rngConst 1) := by
  rw [wf_run_stream0, wf_run_stream1]
  simp

/-- Shifted weights factor as the per-condition scale `exp(shift)` times the
unshifted exponential weights. -/
theorem getWeights_eq_scale_mul (E : EnsembleModel ns nl) (pot : Fin nl → Fin nc → ℝ)
    (mutE : Fin (ns + 1) → ℝ) (T : Fin nc → ℝ) (i : Fin (ns + 1)) (j : Fin nc) :
    getWeights E pot mutE T i j
      = Real.exp (shiftOf E pot mutE T j) * rawExpWeights E pot mutE T i j := by
  simp only [getWeights, rawExpWeights]
  rw [Real.exp_add, mul_comm]

/-- Any species-set sum of the shifted weights factors the per-condition
scale out of the sum. -/
theorem sum_getWeights_eq (E : EnsembleModel ns nl) (pot : Fin nl → Fin nc → ℝ)
    (mutE : Fin (ns + 1) → ℝ) (T : Fin nc → ℝ) (s : Finset (Fin (ns + 1))) (j : Fin nc) :
    ∑ i ∈ s, getWeights E pot mutE T i j
      = Real.exp (shiftOf E pot mutE T j) * ∑ i ∈ s, rawExpWeights E pot mutE T i j := by
  rw [Finset.mul_sum]
  exact Finset.sum_congr rfl fun i _ => getWeights_eq_scale_mul E pot mutE T i j

/-- Scaling numerator and denominator sums by a nonzero constant leaves the
normalized fraction unchanged. -/
theorem scaled_frac_eq (c A B : ℝ) (hc : c ≠ 0) :
    c * A / (c * A + c * B) = A / (A + B) := by
  rw [← mul_add, mul_div_mul_left _ _ hc]

/-- The raw exponent of any species is at most the per-condition maximum
taken by `_get_weights`. -/
theorem rawWeights_le_sup (E : EnsembleModel ns nl) (pot : Fin nl → Fin nc → ℝ)
    (mutE : Fin (ns + 1) → ℝ) (T : Fin nc → ℝ) (i : Fin (ns + 1)) (j : Fin nc) :
    rawWeights E pot mutE T i j
      ≤ Finset.univ.sup' Finset.univ_nonempty (fun i2 => rawWeights E pot mutE T i2 j) :=
  Finset.le_sup' (fun i2 => rawWeights E pot mutE T i2 j) (Finset.mem_univ i)

/-- A non-negative rational rounds (half to even) to a non-negative integer. -/
theorem npRound_nonneg (q : ℚ) (h : 0 ≤ q) : 0 ≤ npRound q := by
  have hf : (0 : ℤ) ≤ ⌊q⌋ := Int.floor_nonneg.mpr h
  simp only [npRound]
  split_ifs <;> omega

/-- Looking a key up past a prefix that does not contain it. -/
theorem lookupLigand_append_right (rest : LigandDict) (k : String) :
    ∀ d : LigandDict, hasKey d k = false →
      lookupLigand (d ++ rest) k = lookupLigand rest k := by
  intro d
  induction d with
  | nil => intro _; rfl
  | cons p tl ih =>
    intro h
    simp only [hasKey, List.any_cons, Bool.or_eq_false_iff] at h
    rw [List.cons_append]
    simp only [lookupLigand]
    rw [if_neg (by simpa using h.1)]
    exact ih (by simpa [hasKey] using h.2)

/-- Looking up a key in a constant-valued association list built by `map`. -/
theorem lookupLigand_map_const (v : List ℚ) (k : String) :
    ∀ l : List String, k ∈ l →
      lookupLigand (l.map (fun x => (x, v))) k = some v := by
  intro l
  induction l with
  | nil => intro h; cases h
  | cons a tl ih =>
    intro h
    simp only [List.map_cons, lookupLigand]
    by_cases hk : a = k
    · rw [if_pos hk]
    · rw [if_neg hk]
      refine ih ?_
      rcases List.mem_cons.mp h with h1 | h2
      · exact absurd h1.symm hk
      · exact h2

/-- Sum over the observable species of the shifted weights factors the scale
out. -/
theorem obsSumOf_scale (E : EnsembleModel ns nl) (pot : Fin nl → Fin nc → ℝ)
    (mutE : Fin (ns + 1) → ℝ) (T : Fin nc → ℝ) (j : Fin nc) :
    obsSumOf E (getWeights E pot mutE T) j
      = Real.exp (shiftOf E pot mutE T j) * obsSumOf E (rawExpWeights E pot mutE T) j := by
  unfold obsSumOf
  exact sum_getWeights_eq E pot mutE T _ j

/-- Sum over the non-observable species of the shifted weights factors the
scale out. -/
theorem notObsSumOf_scale (E : EnsembleModel ns nl) (pot : Fin nl → Fin nc → ℝ)
    (mutE : Fin (ns + 1) → ℝ) (T : Fin nc → ℝ) (j : Fin nc) :
    notObsSumOf E (getWeights E pot mutE T) j
      = Real.exp (shiftOf E pot mutE T j) * notObsSumOf E (rawExpWeights E pot mutE T) j := by
  unfold notObsSumOf
  exact sum_getWeights_eq E pot mutE T _ j

/-- Sum over the folded species of the shifted weights factors the scale out. -/
theorem foldedSumOf_scale (E : EnsembleModel ns nl) (pot : Fin nl → Fin nc → ℝ)
    (mutE : Fin (ns + 1) → ℝ) (T : Fin nc → ℝ) (j : Fin nc) :
    foldedSumOf E (getWeights E pot mutE T) j
      = Real.exp (shiftOf E pot mutE T j) * foldedSumOf E (rawExpWeights E pot mutE T) j := by
  unfold foldedSumOf
  exact sum_getWeights_eq E pot mutE T _ j

/-- Sum over the unfolded species of the shifted weights factors the scale
out. -/
theorem unfoldedSumOf_scale (E : EnsembleModel ns nl) (pot : Fin nl → Fin nc → ℝ)
    (mutE : Fin (ns + 1) → ℝ) (T : Fin nc → ℝ) (j : Fin nc) :
    unfoldedSumOf E (getWeights E pot mutE T) j
      = Real.exp (shiftOf E pot mutE T j) * unfoldedSumOf E (rawExpWeights E pot mutE T) j := by
  unfold unfoldedSumOf
  exact sum_getWeights_eq E pot mutE T _ j

/-! ### Claims -/

/-- C1 (code bug at a concrete input): the claim states that after `mutate`
the genotype's `mut_energy` equals, for each species, the sum of the
`ddg_dict` entries of the active (site, mutation) pairs, because `mutate`
applies the new mutation's offsets.  The source never adds the chosen
mutation's offsets: mutating a wild-type genotype (every ddG equal to 1)
at fresh site 0 succeeds and appends the pair, yet `mut_energy` stays 0
while the active-pair ddG sum is 1. -/
theorem C1_mut_energy_not_updated :
    (Genotype.mutate ["s"] (fun _ _ _ => 1)
        { sites := [], mutations := [], mutEnergy := fun _ => 0 }
        (PyVal.int 0) (fun _ => PyVal.str "M") 1).map
      (fun g => (g.mutEnergy "s", activeEnergy (fun _ _ _ => 1) g "s",
                 g.sites, g.mutations))
      = Except.ok (0, 1, [PyVal.int 0], [PyVal.str "M"]) := by
  norm_num [Genotype.mutate, pickMutation, activeEnergy, Except.map]

/-- C2 (code bug at a concrete input): the claim states that a transition in
which every present genotype has fitness 0 does not raise and draws the
next generation uniformly at full population size.  The source's fallback
builds `np.ones(population_size)`, whose length differs from the number of
distinct genotypes whenever any genotype is duplicated, so
`np.random.choice` raises: with population [0, 0] and fitness identically
0 the run errors instead of resampling. -/
theorem C2_zero_fitness_raises :
    wrightFisher (fun _ => 0) [0, 0] 0 2 (rngConst 0)
      = Except.error "ValueError: a and p must have same size" := by
  norm_num [wrightFisher, wfIter, wfStep, npUnique, rngConst]

/-- C5 counterexample: at branch length 0 with no pre-accumulated mutations
the computed target is 1, not `round(branch_length*sequence_length)` plus
the starting count (which is 0), so the claimed equality fails exactly
where the force-to-1 rule fires. -/
theorem C5_counterexample :
    simulateBranchTarget 0 10 0
      ≠ npRound ((0 : ℚ) * ((10 : Nat) : ℚ)) + ((0 : Nat) : ℤ) := by
  norm_num [simulateBranchTarget, npRound]

/-- C5 (amended): the branch mutation target is non-negative; it equals
`round(branch_length*sequence_length)` plus the starting accumulated count
whenever that sum is nonzero, and is forced to 1 when the sum is zero; in
particular it is at least 1 whenever the branch-scaled term rounds to 0. -/
theorem C5_branch_target_amended (branchLength : ℚ) (seqLength numMutationsStart : Nat)
    (h : 0 ≤ branchLength) :
    0 ≤ simulateBranchTarget branchLength seqLength numMutationsStart ∧
    (npRound (branchLength * (seqLength : ℚ)) + (numMutationsStart : ℤ) ≠ 0 →
      simulateBranchTarget branchLength seqLength numMutationsStart
        = npRound (branchLength * (seqLength : ℚ)) + (numMutationsStart : ℤ)) ∧
    (npRound (branchLength * (seqLength : ℚ)) + (numMutationsStart : ℤ) = 0 →
      simulateBranchTarget branchLength seqLength numMutationsStart = 1) ∧
    (npRound (branchLength * (seqLength : ℚ)) = 0 →
      1 ≤ simulateBranchTarget branchLength seqLength numMutationsStart) := by
  have h0 : 0 ≤ npRound (branchLength * (seqLength : ℚ)) :=
    npRound_nonneg _ (mul_nonneg h (Nat.cast_nonneg _))
  simp only [simulateBranchTarget]
  refine ⟨?_, ?_, ?_, ?_⟩ <;> intros <;> split_ifs <;> omega

/-- C5 witness: the amended statement instantiated at branch length 0,
sequence length 10 and 3 pre-accumulated mutations. -/
theorem C5_branch_target_amended_witness :
    0 ≤ simulateBranchTarget 0 10 3 ∧
    (npRound ((0 : ℚ) * ((10 : Nat) : ℚ)) + ((3 : Nat) : ℤ) ≠ 0 →
      simulateBranchTarget 0 10 3
        = npRound ((0 : ℚ) * ((10 : Nat) : ℚ)) + ((3 : Nat) : ℤ)) ∧
    (npRound ((0 : ℚ) * ((10 : Nat) : ℚ)) + ((3 : Nat) : ℤ) = 0 →
      simulateBranchTarget 0 10 3 = 1) ∧
    (npRound ((0 : ℚ) * ((10 : Nat) : ℚ)) = 0 →
      1 ≤ simulateBranchTarget 0 10 3) :=
  C5_branch_target_amended 0 10 3 (by simp)

/-- C6: every generation snapshot recorded by a successful Wright-Fisher
run, including generation 0, has genotype counts summing to the initial
population size. -/
theorem C6_snapshot_counts_sum (fitness : Nat → ℚ) (population : List Nat)
    (mutationRate : ℚ) (numGenerations : Nat) (rng : WFRng)
    (gens : List (List Nat × List Nat))
    (h : wrightFisher fitness population mutationRate numGenerations rng = Except.ok gens) :
    ∀ s ∈ gens, s.2.sum = population.length := by
  unfold wrightFisher at h
  split at h
  · exact Except.noConfusion h
  split at h
  · exact Except.noConfusion h
  split at h
  · exact Except.noConfusion h
  split at h
  next e heq => exact Except.noConfusion h
  next rest heq =>
    simp only [Except.ok.injEq] at h
    subst h
    intro s hs
    rcases List.mem_cons.mp hs with rfl | hmem
    · exact npUnique_counts_sum population
    · exact wfIter_counts_sum _ _ _ _ _ _ _ heq s hmem

/-- C6 witness: a one-generation run over a single wild-type individual
records exactly the snapshot ([0], [1]), whose counts sum to 1. -/
theorem C6_snapshot_counts_sum_witness : (([0], [1]) : List Nat × List Nat).2.sum
      = ([0] : List Nat).length :=
  C6_snapshot_counts_sum (fun _ => 1) [0] 0 1 (rngConst 0) [([0], [1])]
    (by norm_num [wrightFisher, wfIter, npUnique]) ([0], [1]) (by simp)

/-- C7 (code bug at a concrete input): the claim states that re-mutating a
previously mutated site removes the old (site, mutation) pair before
appending the new one.  The source instead calls `list.remove` with the
positional index as the value to remove; re-mutating site 7 (previously
mutated to "A") therefore raises ValueError (0 is not an element of the
sites list [7]) instead of substituting the pair. -/
theorem C7_remutation_raises :
    Genotype.mutate ["s"] (fun _ _ _ => 1)
        { sites := [PyVal.int 7], mutations := [PyVal.str "A"], mutEnergy := fun _ => 0 }
        (PyVal.int 7) (fun _ => PyVal.str "B") 1
      = Except.error "ValueError: list.remove(x): x not in list" := by
  rfl

/-- C8 counterexample: two Wright-Fisher runs with identical function
arguments (fitness, population, mutation rate, generation count) but
different numpy global-generator streams produce different trajectories;
the stream is not among the supplied inputs of the source function, so
fixing the inputs and a seed of the explicitly supplied generator does not
reproduce the trajectory. -/
theorem C8_counterexample :
    wrightFisher (fun _ => 1) [0, 1] 0 2 (rngConst 0)
      ≠ wrightFisher (fun _ => 1) [0, 1] 0 2 (rngConst 1) :=
  wf_depends_on_stream

/-- C8 (amended): the stochastic choices of the evolve-layer Wright-Fisher
engine (and of `Genotype.mutate`) are drawn from numpy's process-global
generator, which is not a parameter of those functions; trajectories are a
deterministic function of the inputs together with that global stream
(identical global streams give identical trajectories), and they genuinely
depend on the stream (different streams can give different trajectories
for the same inputs). -/
theorem C8_determinism_via_global_stream :
    (∀ (fitness : Nat → ℚ) (population : List Nat) (mutationRate : ℚ)
        (numGenerations : Nat) (rng1 rng2 : WFRng), rng1 = rng2 →
        wrightFisher fitness population mutationRate numGenerations rng1
          = wrightFisher fitness population mutationRate numGenerations rng2) ∧
    (∃ (fitness : Nat → ℚ) (population : List Nat) (mutationRate : ℚ)
        (numGenerations : Nat) (rng1 rng2 : WFRng),
        wrightFisher fitness population mutationRate numGenerations rng1
          ≠ wrightFisher fitness population mutationRate numGenerations rng2) := by
  constructor
  · intro _ _ _ _ _ _ h
    rw [h]
  · exact ⟨fun _ => 1, [0, 1], 0, 2, rngConst 0, rngConst 1, wf_depends_on_stream⟩

/-- C8 witness: the determinism half instantiated at a concrete run with
equal streams. -/
theorem C8_determinism_via_global_stream_witness :
    wrightFisher (fun _ => 1) [0] 0 1 (rngConst 0)
      = wrightFisher (fun _ => 1) [0] 0 1 (rngConst 0) :=
  C8_determinism_via_global_stream.1 (fun _ => 1) [0] 0 1 (rngConst 0) (rngConst 0) rfl

/-- C3: for every ensemble with a built z matrix, mutation-energy
dictionary and temperature array, the fast paths return exactly the same
fx_obs, dG_obs (including the NaN mask) and fx_folded values as the
corresponding columns of `get_obs` evaluated on the equivalent
mutation-energy dictionary: both compute the same `_get_weights` weights
and the same observable formulas. -/
theorem C3_fast_paths_match_get_obs (E : EnsembleModel ns nl)
    (pot : Fin nl → Fin nc → ℝ) (d : String → Option ℝ) (T : Fin nc → ℝ) :
    (getFxObsFast E pot (mutDictToArray E d) T).1 = (getObsColumns E pot d T).1 ∧
    (getDGObsFast E pot (mutDictToArray E d) T).1 = (getObsColumns E pot d T).2.1 ∧
    (getFxObsFast E pot (mutDictToArray E d) T).2 = (getObsColumns E pot d T).2.2 ∧
    (getDGObsFast E pot (mutDictToArray E d) T).2 = (getObsColumns E pot d T).2.2 :=
  ⟨rfl, rfl, rfl, rfl⟩

/-- C4: the per-column shift of `_get_weights` leaves every ratio of two
weights in the same condition unchanged; every shifted weight is positive
and bounded by `exp(max_allowed)` (no overflow, for arbitrary species
energies); and all ratio-derived observables (species fractions, fx_obs,
fx_folded, dG_obs) coincide with the values computed from the unshifted
exponential weights. -/
theorem C4_shift_preserves_ratios (E : EnsembleModel ns nl)
    (pot : Fin nl → Fin nc → ℝ) (mutE : Fin (ns + 1) → ℝ) (T : Fin nc → ℝ) :
    (∀ i k j, getWeights E pot mutE T i j * rawExpWeights E pot mutE T k j
        = getWeights E pot mutE T k j * rawExpWeights E pot mutE T i j) ∧
    (∀ i j, 0 < getWeights E pot mutE T i j ∧
        getWeights E pot mutE T i j ≤ Real.exp E.maxAllowed) ∧
    (∀ i j, speciesFracOf E (getWeights E pot mutE T) i j
        = speciesFracOf E (rawExpWeights E pot mutE T) i j) ∧
    (∀ j, fxObsOf E (getWeights E pot mutE T) j
        = fxObsOf E (rawExpWeights E pot mutE T) j) ∧
    (∀ j, fxFoldedOf E (getWeights E pot mutE T) j
        = fxFoldedOf E (rawExpWeights E pot mutE T) j) ∧
    (∀ j, dGObsOf E (getWeights E pot mutE T) T j
        = dGObsOf E (rawExpWeights E pot mutE T) T j) := by
  refine ⟨?_, ?_, ?_, ?_, ?_, ?_⟩
  · intro i k j
    rw [getWeights_eq_scale_mul, getWeights_eq_scale_mul]
    ring
  · intro i j
    refine ⟨Real.exp_pos _, ?_⟩
    unfold getWeights shiftOf
    apply Real.exp_le_exp.mpr
    have hle := rawWeights_le_sup E pot mutE T i j
    linarith
  · intro i j
    unfold speciesFracOf totalSumOf
    rw [getWeights_eq_scale_mul, sum_getWeights_eq]
    exact mul_div_mul_left _ _ (Real.exp_ne_zero _)
  · intro j
    unfold fxObsOf
    rw [obsSumOf_scale, notObsSumOf_scale]
    exact scaled_frac_eq _ _ _ (Real.exp_ne_zero _)
  · intro j
    unfold fxFoldedOf
    rw [foldedSumOf_scale, unfoldedSumOf_scale]
    exact scaled_frac_eq _ _ _ (Real.exp_ne_zero _)
  · intro j
    unfold dGObsOf
    rw [obsSumOf_scale, notObsSumOf_scale,
      mul_div_mul_left _ _ (Real.exp_ne_zero (shiftOf E pot mutE T j))]
    exact if_congr (by simp [mul_eq_zero, Real.exp_ne_zero]) rfl rfl

/-- C9: `get_species_dG` returns, per condition, `dG0` minus the sum over
ligands of potential times stoichiometry, plus the mutation energy; it is
linear in the mutation energy with slope 1, and linear in each single
ligand potential with slope minus that species' stoichiometry for the
ligand. -/
theorem C9_species_dG_linear (E : EnsembleModel ns nl) (pot : Fin nl → Fin nc → ℝ)
    (i : Fin (ns + 1)) (mutEnergy k δ : ℝ) (ℓ : Fin nl) :
    (∀ j, getSpeciesDG E pot i mutEnergy j
        = E.dG0 i - (∑ l, pot l j * E.stoich i l) + mutEnergy) ∧
    (∀ j, getSpeciesDG E pot i (mutEnergy + k) j
        = getSpeciesDG E pot i mutEnergy j + k) ∧
    (∀ j, getSpeciesDG E (bumpPot pot ℓ δ) i mutEnergy j
        = getSpeciesDG E pot i mutEnergy j - δ * E.stoich i ℓ) := by
  refine ⟨fun j => rfl, fun j => by unfold getSpeciesDG; ring, fun j => ?_⟩
  unfold getSpeciesDG zMatrix bumpPot
  have hterm : ∀ l : Fin nl, (if l = ℓ then pot l j + δ else pot l j) * E.stoich i l
      = pot l j * E.stoich i l + (if l = ℓ then δ * E.stoich i l else 0) := by
    intro l
    split_ifs <;> ring
  have hsum : ∑ l, (if l = ℓ then pot l j + δ else pot l j) * E.stoich i l
      = (∑ l, pot l j * E.stoich i l) + δ * E.stoich i ℓ := by
    rw [Finset.sum_congr rfl fun l _ => hterm l, Finset.sum_add_distrib,
      Finset.sum_ite_eq' Finset.univ ℓ (fun l => δ * E.stoich i l)]
    simp
  rw [hsum]
  ring

/-- C10 (spec-modelled for the pass-through validator): calling
`get_species_dG`, `get_obs` or `read_ligand_dict` with a caller-supplied
ligand dictionary routes it to `_build_z_matrix`, which inserts into that
same dictionary a zero-valued per-condition entry for every ensemble
ligand absent from it; an empty dictionary gains a one-condition zero
entry for every ensemble ligand; and whenever some ensemble ligand was
absent the dictionary is genuinely changed. -/
theorem C10_ligand_dict_mutated (ligandList : List String) (d : LigandDict) :
    (∀ lig ∈ ligandList, hasKey d lig = false →
      lookupLigand (buildZMatrixLigandUpdate ligandList (check_ligand_dict d)) lig
        = some (List.replicate (numConditionsOf d) 0)) ∧
    (d = [] → buildZMatrixLigandUpdate ligandList (check_ligand_dict d)
        = ligandList.map (fun lig => (lig, [(0 : ℚ)]))) ∧
    (∀ lig ∈ ligandList, hasKey d lig = false →
      buildZMatrixLigandUpdate ligandList (check_ligand_dict d) ≠ d) := by
  refine ⟨?_, ?_, ?_⟩
  · intro lig hmem hkey
    unfold buildZMatrixLigandUpdate check_ligand_dict
    rw [lookupLigand_append_right _ _ _ hkey]
    exact lookupLigand_map_const _ _ _
      (List.mem_filter.mpr ⟨hmem, by simp [hkey]⟩)
  · intro hd
    subst hd
    simp [buildZMatrixLigandUpdate, check_ligand_dict, hasKey, numConditionsOf,
      List.replicate]
  · intro lig hmem hkey heq
    have hmemf : lig ∈ ligandList.filter (fun x => ! hasKey d x) :=
      List.mem_filter.mpr ⟨hmem, by simp [hkey]⟩
    have hlen := congrArg List.length heq
    simp only [buildZMatrixLigandUpdate, check_ligand_dict, List.length_append,
      List.length_map, Nat.add_eq_left] at hlen
    rw [List.length_eq_zero] at hlen
    rw [hlen] at hmemf
    cases hmemf

/-- C10 witness: an empty caller dictionary passed against an ensemble with
one ligand "X" ends up containing the zero entry for "X". -/
theorem C10_ligand_dict_mutated_witness :
    lookupLigand (buildZMatrixLigandUpdate ["X"] (check_ligand_dict [])) "X"
      = some (List.replicate (numConditionsOf []) 0) :=
  (C10_ligand_dict_mutated ["X"] []).1 "X" (by simp) (by rfl)

end EEE
